import Mathlib

/-!
Shallow embedding of the podcast-monitor backend (src/index.js).

Conventions of the embedding:
* Timestamps are integers (milliseconds since the Unix epoch, as produced by
  JavaScript `Date.getTime()`); `new Date(0)` is the integer `0`.
* Every external collaborator (the hosted database, the RSS parser, the
  audio download, the Whisper and Claude HTTP APIs, JSON.parse of the JS
  runtime) is an oracle field of `Env`: a function from the request data to
  `Except String result` (`.error` models a thrown/rejected promise) or to
  the returned data directly where the source never observes a failure.
* Side effects (database writes, outbound HTTP calls, the artificial delay,
  the outbound email, `console.error` logging of a caught error) are recorded
  in an `Eff` trace; a function of the source that returns a value is
  embedded as a Lean function returning `List Eff × value`.
* JavaScript truthiness of strings is modelled explicitly: `none` (absent)
  and `some ""` are falsy.
-/

/-- A JavaScript value as stored in the `duration_seconds` column: JS `null`,
JS `NaN` (arithmetic on a non-numeric part), or a number.  Durations are
integral in the model. -/
inductive JSVal where
  | null
  | nan
  | num (n : Int)
deriving DecidableEq, Repr

/-- All-decimal-digit run to a number, `none` when a non-digit occurs. -/
def digitsAux : List Char → Nat → Option Nat
  | [], acc => some acc
  | c :: cs, acc =>
    if c < '0' ∨ '9' < c then none
    else digitsAux cs (acc * 10 + (c.toNat - 48))

/-- The digits of a non-empty character run as a number. -/
def digitsOf (ds : List Char) : Option Nat :=
  match ds with
  | [] => none
  | _ => digitsAux ds 0

/-- JS `Number(s)` restricted to integer numerals: `Number("")` is `0`,
a decimal integer numeral (optionally negated) is its value, anything else
is `NaN` (`none`).  Defined over the character list so it evaluates. -/
def jsNumber (s : String) : Option Int :=
  match s.data with
  | [] => some 0
  | c :: ds =>
    if c = '-' then (digitsOf ds).map (fun n => -(n : Int))
    else (digitsOf (c :: ds)).map (fun n => (n : Int))

/-- JS `a || b` on possibly-absent strings: `a` when present and non-empty
(truthy), otherwise `b`. -/
def jsOrOpt (a b : Option String) : Option String :=
  match a with
  | some s => if s = "" then b else some s
  | none => b

/-- JS `a || d` where `d` is a present default string. -/
def jsOrStr (a : Option String) (d : String) : String :=
  match a with
  | some s => if s = "" then d else s
  | none => d

/-- JS `s.split(c)` for a single-character separator, by recursion on the
character list: `acc` holds the (reversed) characters of the current piece. -/
def splitOnCharAux (c : Char) : List Char → List Char → List String
  | [], acc => [String.mk acc.reverse]
  | x :: xs, acc =>
    if x = c then String.mk acc.reverse :: splitOnCharAux c xs []
    else splitOnCharAux c xs (x :: acc)

/-- JS `s.split(c)` for a single-character separator. -/
def splitOnChar (c : Char) (s : String) : List String :=
  splitOnCharAux c s.data []

/-- Substring occurrence on character lists. -/
def includesAux (pat : List Char) : List Char → Bool
  | [] => pat.isEmpty
  | x :: xs => pat.isPrefixOf (x :: xs) || includesAux pat xs

/-- JS `s.includes(pat)`. -/
def strIncludes (s pat : String) : Bool :=
  includesAux pat.data s.data

/-- `toLowerCase()` on the ASCII range (the model's alphabet). -/
def lowerChar (c : Char) : Char :=
  if 'A' ≤ c ∧ c ≤ 'Z' then Char.ofNat (c.toNat + 32) else c

/-- `s.toLowerCase()` on the ASCII range. -/
def lowerString (s : String) : String :=
  String.mk (s.data.map lowerChar)

/-- A row of the `podcasts` table (the columns the source reads). -/
structure Podcast where
  id : Nat
  name : String
  rss_url : String
  last_checked : Option Int
  is_active : Bool
deriving DecidableEq, Repr

/-- An item of a fetched RSS feed (the fields the source reads).
`pubDate` is `new Date(item.pubDate || item.isoDate).getTime()`. -/
structure FeedItem where
  title : String
  pubDate : Int
  contentSnippet : Option String
  content : Option String
  enclosureUrl : Option String
  link : Option String
  itunesDuration : Option String
deriving DecidableEq, Repr

/-- A row of the `interest_topics` table. -/
structure Topic where
  id : Nat
  topic : String
  is_active : Bool
deriving DecidableEq, Repr

/-- One entry of the `topic_flags` array of the Claude topic analysis. -/
structure FlagItem where
  topic : String
  timestamp_start : Int
  timestamp_end : Int
  snippet : String
  analysis : String
  relevance_score : Int
deriving DecidableEq, Repr

/-- The parsed JSON returned by the Claude topic-flagging call
(`JSON.parse(response.data.content[0].text)`); `analysis.topic_flags || []`
is modelled by the list being empty when absent. -/
structure FlagAnalysis where
  priority_episode : Bool
  priority_topics : List String
  topic_flags : List FlagItem
deriving DecidableEq, Repr

/-- The payload inserted into the `episodes` table by `processNewEpisode`. -/
structure EpisodeData where
  podcast_id : Nat
  title : String
  description : Option String
  audio_url : Option String
  published_at : Int
  duration_seconds : JSVal
  processed : Bool
deriving DecidableEq, Repr

/-- A row of the `episodes` table, as returned by the insert's
`.select().single()` and by the digest query. -/
structure Episode where
  id : Nat
  podcast_id : Nat
  title : String
  description : Option String
  audio_url : Option String
  published_at : Int
  duration_seconds : JSVal
  processed : Bool
  transcript : Option String
  ai_summary : Option String
deriving DecidableEq, Repr

/-- A row inserted into the `topic_flags` table. -/
structure TopicFlagRow where
  episode_id : Nat
  topic_id : Nat
  timestamp_start : Int
  timestamp_end : Int
  snippet : String
  analysis : String
  relevance_score : Int
deriving DecidableEq, Repr

/-- A JSON value, for the digest renderer's `JSON.parse` of `ai_summary`. -/
inductive JVal where
  | jnull
  | jbool (b : Bool)
  | jnum (n : Int)
  | jstr (s : String)
  | jarr (xs : List JVal)
  | jobj (fields : List (String × JVal))

/-- JS property access `obj.key`: `some` value when `obj` is an object with
the field, otherwise `undefined` (`none`). -/
def jGet (v : JVal) (key : String) : Option JVal :=
  match v with
  | .jobj fields => (fields.find? (fun f => f.1 = key)).map (·.2)
  | _ => none

/-- JS truthiness of a possibly-`undefined` JSON value. -/
def jTruthy (v : Option JVal) : Bool :=
  match v with
  | none => false
  | some .jnull => false
  | some (.jbool b) => b
  | some (.jnum n) => n ≠ 0
  | some (.jstr s) => s ≠ ""
  | some (.jarr _) => true
  | some (.jobj _) => true

/-- Observable side effects of a run, in execution order. -/
inductive Eff where
  | fetchFeed (url : String)
  | insertEpisode (d : EpisodeData)
  | httpGetAudio (url : String)
  | whisper (url : String)
  | claudeSummarize (title : String)
  | queryTopics
  | claudeFlag (title : String)
  | updatePrioritySummary (id : Nat) (topics : List String)
  | updateEpisode (id : Nat) (transcript : String) (ai_summary : String) (processed : Bool)
  | insertTopicFlags (rows : List TopicFlagRow)
  | updateLastChecked (pid : Nat) (t : Int)
  | sleep (ms : Nat)
  | sendMail (recipient : String) (body : List (Episode × Bool))
  | logError (context : String)
deriving DecidableEq, Repr

/-- Oracle for every external collaborator: each field gives the outcome the
external service would produce for a given request; `.error` is a thrown
exception / rejected promise at that call site. -/
structure Env where
  getPodcasts : Except String (List Podcast)
  parseFeed : String → Except String (List FeedItem)
  insertEpisode : EpisodeData → Except String Episode
  downloadAudio : String → Except String Unit
  whisper : String → Except String String
  claudeSummary : String → String → Except String String
  queryTopics : Option (List Topic)
  claudeFlags : String → String → Except String FlagAnalysis

/-- `getAudioUrl(item)` of the source: the enclosure URL when truthy, else
the item link when it contains ".mp3", else `null`. -/
def getAudioUrl (item : FeedItem) : Option String :=
  match item.enclosureUrl with
  | some u =>
    if u = "" then
      match item.link with
      | some l => if strIncludes l ".mp3" then some l else none
      | none => none
    else some u
  | none =>
    match item.link with
    | some l => if strIncludes l ".mp3" then some l else none
    | none => none

/-- `parseDuration(duration)` of the source: split on ":", convert each part
with `Number`, and combine three parts as h:m:s, two parts as m:s; any other
number of parts (or a falsy input) yields `null`; a non-numeric part yields
`NaN` by JS arithmetic. -/
def parseDuration (duration : Option String) : JSVal :=
  match duration with
  | none => .null
  | some s =>
    if s = "" then .null
    else
      match (splitOnChar ':' s).map jsNumber with
      | [some h, some m, some sec] => .num (h * 3600 + m * 60 + sec)
      | [_, _, _] => .nan
      | [some m, some sec] => .num (m * 60 + sec)
      | [_, _] => .nan
      | _ => .null

/-- `podcast.last_checked ? new Date(podcast.last_checked) : new Date(0)`. -/
def lastCheckedDate (p : Podcast) : Int :=
  match p.last_checked with
  | some t => t
  | none => 0

/-- The JSON.stringify'd fallback summary returned when the Claude summary
call fails. -/
def fallbackSummaryText : String :=
  "\x7b\"guest\":\"Unknown\",\"summary_paragraphs\":[\"AI summary generation failed. Manual review required.\"],\"key_topics\":[],\"main_arguments\":[],\"notable_quotes\":[]\x7d"

/-- `transcribeAudio(audioUrl)`: `null` for a falsy URL; otherwise download
the audio then call Whisper; any error is caught, logged and turns into
`null`.  Returns the trace and the transcript (`none` models JS `null`). -/
def transcribeAudio (env : Env) (audioUrl : Option String) : List Eff × Option String :=
  match audioUrl with
  | none => ([], none)
  | some url =>
    match env.downloadAudio url with
    | .error _ => ([.httpGetAudio url, .logError "transcribeAudio"], none)
    | .ok _ =>
      match env.whisper url with
      | .error _ => ([.httpGetAudio url, .whisper url, .logError "transcribeAudio"], none)
      | .ok text => ([.httpGetAudio url, .whisper url], some text)

/-- `generateEnhancedSummary(episode, transcript)`: one Claude call; on error
the fallback JSON string is returned and the error logged. -/
def generateEnhancedSummary (env : Env) (ep : Episode) (transcript : String) :
    List Eff × String :=
  match env.claudeSummary ep.title transcript with
  | .ok s => ([.claudeSummarize ep.title], s)
  | .error _ => ([.claudeSummarize ep.title, .logError "generateEnhancedSummary"], fallbackSummaryText)

/-- `flagInterestTopics(episode, transcript)`: query the active interest
topics (no data or an empty list short-circuits to `[]`), one Claude call
whose JSON is parsed (`env.claudeFlags` composes the call and `JSON.parse`;
an error at either is caught, logged and yields `[]`), then each returned
flag whose topic case-insensitively matches an active topic becomes a row;
when the analysis marks the episode a priority episode the episode's
`ai_summary` is updated in place with the priority marking (the merge base
`JSON.parse(episode.ai_summary || '\x7b\x7d')` is the in-memory record's
summary, `null` for a freshly inserted episode). -/
def flagInterestTopics (env : Env) (ep : Episode) (transcript : String) :
    List Eff × List TopicFlagRow :=
  match env.queryTopics with
  | none => ([.queryTopics], [])
  | some [] => ([.queryTopics], [])
  | some topics =>
    match env.claudeFlags ep.title transcript with
    | .error _ => ([.queryTopics, .claudeFlag ep.title, .logError "flagInterestTopics"], [])
    | .ok analysis =>
      let flags := analysis.topic_flags.filterMap (fun f =>
        match topics.find? (fun t => lowerString t.topic = lowerString f.topic) with
        | some t => some
            { episode_id := ep.id
              topic_id := t.id
              timestamp_start := f.timestamp_start
              timestamp_end := f.timestamp_end
              snippet := f.snippet
              analysis := f.analysis
              relevance_score := f.relevance_score }
        | none => none)
      let prioEffs :=
        if analysis.priority_episode then
          [Eff.updatePrioritySummary ep.id analysis.priority_topics]
        else []
      ([.queryTopics, .claudeFlag ep.title] ++ prioEffs, flags)

/-- `processEpisodeAI(episode)`: transcribe; a falsy transcript (absent or
empty) skips the rest; otherwise summarize, flag topics, persist transcript,
summary and `processed: true`, and insert the flag rows when non-empty. -/
def processEpisodeAI (env : Env) (ep : Episode) : List Eff :=
  let t := transcribeAudio env ep.audio_url
  match t.2 with
  | none => t.1
  | some tr =>
    if tr = "" then t.1
    else
      let s := generateEnhancedSummary env ep tr
      let f := flagInterestTopics env ep tr
      t.1 ++ s.1 ++ f.1 ++ [Eff.updateEpisode ep.id tr s.2 true] ++
        (if f.2.isEmpty then [] else [Eff.insertTopicFlags f.2])

/-- The insert payload `processNewEpisode` builds from a feed item. -/
def episodeDataOf (p : Podcast) (item : FeedItem) : EpisodeData :=
  { podcast_id := p.id
    title := item.title
    description := jsOrOpt item.contentSnippet item.content
    audio_url := getAudioUrl item
    published_at := item.pubDate
    duration_seconds := parseDuration item.itunesDuration
    processed := false }

/-- `processNewEpisode(podcast, item)`: insert the episode row; an insert
error is caught and logged (ending this item); on success the AI pipeline
runs on the returned record. -/
def processNewEpisode (env : Env) (p : Podcast) (item : FeedItem) : List Eff :=
  let d := episodeDataOf p item
  match env.insertEpisode d with
  | .error _ => [.insertEpisode d, .logError "processNewEpisode"]
  | .ok ep => Eff.insertEpisode d :: processEpisodeAI env ep

/-- `processPodcastFeed(podcast)`: fetch the RSS feed (an error is caught and
logged, skipping everything including the `last_checked` update); process
each item whose publish date is strictly later than the last-checked date;
finally set `last_checked` to the current time. -/
def processPodcastFeed (env : Env) (now : Int) (p : Podcast) : List Eff :=
  match env.parseFeed p.rss_url with
  | .error _ => [.fetchFeed p.rss_url, .logError "processPodcastFeed"]
  | .ok items =>
    Eff.fetchFeed p.rss_url ::
      ((items.map (fun it =>
          if lastCheckedDate p < it.pubDate then processNewEpisode env p it else [])).flatten
        ++ [Eff.updateLastChecked p.id now])

/-- The body of `checkAllFeeds` up to its catch: the podcasts query
(`if (error) throw error`), then each podcast processed in order with a
2000 ms delay after it. -/
def checkAllFeedsBody (env : Env) (now : Int) : List Eff × Except String Unit :=
  match env.getPodcasts with
  | .error e => ([], .error e)
  | .ok ps => ((ps.map (fun p => processPodcastFeed env now p ++ [Eff.sleep 2000])).flatten, .ok ())

/-- `checkAllFeeds()`: the body wrapped in the catch-all that logs the error
and returns normally. -/
def checkAllFeeds (env : Env) (now : Int) : List Eff :=
  match checkAllFeedsBody env now with
  | (t, .ok _) => t
  | (t, .error _) => t ++ [.logError "checkAllFeeds"]

/-- The priority filter of `generateDigestHTML`: `JSON.parse(ep.ai_summary ||
'\x7b\x7d')` and then truthiness of `summary.priority_episode`; a parse error is
caught and yields `false`.  `parse` is the JS runtime's `JSON.parse`,
returning `none` on a parse error. -/
def summaryPriorityFlag (parse : String → Option JVal) (aiSummary : Option String) : Bool :=
  match parse (jsOrStr aiSummary "\x7b\x7d") with
  | some j => jTruthy (jGet j "priority_episode")
  | none => false

/-- `generateDigestHTML(episodes)`, modelled as the ordered sequence of
episode renderings it emits (each paired with whether it is rendered in the
priority section); the surrounding HTML string concatenation carries no
further episode content.  `priorityEpisodes` is the priority filter and
`regularEpisodes` excludes exactly its members, as in the source. -/
def generateDigestHTML (parse : String → Option JVal) (episodes : List Episode) :
    List (Episode × Bool) :=
  let priorityEpisodes := episodes.filter (fun ep => summaryPriorityFlag parse ep.ai_summary)
  let regularEpisodes := episodes.filter (fun ep => !(decide (ep ∈ priorityEpisodes)))
  priorityEpisodes.map (fun ep => (ep, true)) ++ regularEpisodes.map (fun ep => (ep, false))

/-- The supabase digest query: episodes with `published_at ≥ now − 24 h` and
`processed = true`, ordered by `published_at` descending. -/
def moreRecent (a b : Episode) : Prop := b.published_at ≤ a.published_at

instance : DecidableRel moreRecent := fun a b => Int.decLe b.published_at a.published_at

instance : IsTotal Episode moreRecent :=
  ⟨fun a b => (Int.le_total b.published_at a.published_at).symm.symm⟩

instance : IsTrans Episode moreRecent :=
  ⟨fun _ _ _ hab hbc => le_trans hbc hab⟩

/-- The digest selection: the rows the hosted database returns for the query
`published_at ≥ now − 86400000 ∧ processed`, ordered most recent first. -/
def digestQuery (table : List Episode) (now : Int) : List Episode :=
  List.insertionSort moreRecent
    (table.filter (fun e => e.processed && decide (now - 86400000 ≤ e.published_at)))

/-- `sendDailyDigest()`: read the configured email (a missing or empty
address returns with no effect), query the last 24 hours of processed
episodes (none returns with no effect), otherwise send one digest email. -/
def sendDailyDigest (parse : String → Option JVal) (userEmail : Option String)
    (table : List Episode) (now : Int) : List Eff :=
  match userEmail with
  | none => []
  | some email =>
    if email = "" then []
    else
      let episodes := digestQuery table now
      if episodes.isEmpty then []
      else [Eff.sendMail email (generateDigestHTML parse episodes)]

/-- The express handler wrapper of lines 604-611 / 613-620: `try` the
operation, respond 200 with `success: true`, and on a rejected promise
respond 500 with `success: false`.  Returns (status, success, trace). -/
def expressHandler (op : List Eff × Except String Unit) : Nat × Bool × List Eff :=
  match op.2 with
  | .ok _ => (200, true, op.1)
  | .error _ => (500, false, op.1)

/-- `await checkAllFeeds()` as the handler sees it: `checkAllFeeds` returns
normally on every input (its catch-all swallows every error), so the awaited
promise always resolves. -/
def postCheckFeeds (env : Env) (now : Int) : Nat × Bool × List Eff :=
  expressHandler (checkAllFeeds env now, .ok ())

/-- `POST /send-digest`: same wrapper around `sendDailyDigest`. -/
def postSendDigest (parse : String → Option JVal) (userEmail : Option String)
    (table : List Episode) (now : Int) : Nat × Bool × List Eff :=
  expressHandler (sendDailyDigest parse userEmail table now, .ok ())

/-- The cron job of lines 42-45: log and `await checkAllFeeds()`. -/
def cronFeedCheck (env : Env) (now : Int) : List Eff := checkAllFeeds env now

/-- The cron job of lines 48-51: log and `await sendDailyDigest()`. -/
def cronDailyDigest (parse : String → Option JVal) (userEmail : Option String)
    (table : List Episode) (now : Int) : List Eff :=
  sendDailyDigest parse userEmail table now

/-- What the last database write of a trace leaves in the episode's
`ai_summary` column: the plain summary text of an `updateEpisode`, or the
priority-marked JSON of an `updatePrioritySummary`. -/
inductive SummaryWrite where
  | plain (s : String)
  | priorityMarked (topics : List String)
deriving DecidableEq, Repr

/-- Replay a trace over the `ai_summary` column of episode `id`: the value
left by the last write to it, `none` when never written. -/
def finalSummaryWrite (id : Nat) (tr : List Eff) : Option SummaryWrite :=
  tr.foldl (fun acc e =>
    match e with
    | .updateEpisode i _ s _ => if i = id then some (.plain s) else acc
    | .updatePrioritySummary i ts => if i = id then some (.priorityMarked ts) else acc
    | _ => acc) none

/-- Count the effects of a trace selected by `f`. -/
def countEff (f : Eff → Bool) (tr : List Eff) : Nat := (tr.filter f).length

def isWhisperEff : Eff → Bool
  | .whisper _ => true
  | _ => false

def isHttpGetAudioEff : Eff → Bool
  | .httpGetAudio _ => true
  | _ => false

def isClaudeSummarizeEff : Eff → Bool
  | .claudeSummarize _ => true
  | _ => false

def isClaudeFlagEff : Eff → Bool
  | .claudeFlag _ => true
  | _ => false

def isUpdateEpisodeEff : Eff → Bool
  | .updateEpisode _ _ _ _ => true
  | _ => false

def isInsertTopicFlagsEff : Eff → Bool
  | .insertTopicFlags _ => true
  | _ => false

def isInsertEpisodeEff : Eff → Bool
  | .insertEpisode _ => true
  | _ => false

def isFetchFeedEff : Eff → Bool
  | .fetchFeed _ => true
  | _ => false

/-- The claim-side reading of the digest priority condition: the episode's
`ai_summary` is present and parses as JSON whose `priority_episode` field is
truthy. -/
def priorityParses (parse : String → Option JVal) (ep : Episode) : Prop :=
  ∃ s j, ep.ai_summary = some s ∧ parse s = some j ∧ jTruthy (jGet j "priority_episode") = true

/-- A concrete podcast for witnesses: never checked before. -/
def pW : Podcast :=
  { id := 1, name := "P", rss_url := "u", last_checked := none, is_active := true }

/-- A concrete feed item with an enclosure audio URL. -/
def itemW : FeedItem :=
  { title := "E", pubDate := 100, contentSnippet := none, content := none
    enclosureUrl := some "a.mp3", link := none, itunesDuration := none }

/-- A feed item published exactly at the Unix epoch. -/
def itemEpoch : FeedItem :=
  { title := "Z", pubDate := 0, contentSnippet := none, content := none
    enclosureUrl := some "a.mp3", link := none, itunesDuration := none }

/-- The episode row returned by the insert for the witness runs. -/
def epW : Episode :=
  { id := 9, podcast_id := 1, title := "E", description := none
    audio_url := some "a.mp3", published_at := 100, duration_seconds := .null
    processed := false, transcript := none, ai_summary := none }

/-- The Claude topic analysis returned in the witness runs: the whole episode
is a priority episode and one section is flagged on topic "ai". -/
def analysisW : FlagAnalysis :=
  { priority_episode := true
    priority_topics := ["ai"]
    topic_flags := [{ topic := "ai", timestamp_start := 10, timestamp_end := 20
                      snippet := "sn", analysis := "an", relevance_score := 1 }] }

/-- The topic-flag row the pipeline derives from `analysisW` for `epW`. -/
def rowW : TopicFlagRow :=
  { episode_id := 9, topic_id := 1, timestamp_start := 10, timestamp_end := 20
    snippet := "sn", analysis := "an", relevance_score := 1 }

/-- A concrete fully-successful environment. -/
def envW : Env :=
  { getPodcasts := .ok [pW]
    parseFeed := fun _ => .ok [itemW]
    insertEpisode := fun _ => .ok epW
    downloadAudio := fun _ => .ok ()
    whisper := fun _ => .ok "T"
    claudeSummary := fun _ _ => .ok "S0"
    queryTopics := some [{ id := 1, topic := "ai", is_active := true }]
    claudeFlags := fun _ _ => .ok analysisW }

/-- `envW` with a failing Whisper call: transcription yields no transcript. -/
def envSkip : Env := { envW with whisper := fun _ => .error "whisper down" }

/-- `envW` whose feed has only the epoch-dated item. -/
def envEpoch : Env := { envW with parseFeed := fun _ => .ok [itemEpoch] }

/-- `envW` with two active podcasts in the query result. -/
def envTwo : Env := { envW with getPodcasts := .ok [pW, pW] }

/-- A concrete `JSON.parse` oracle: the empty object for "\x7b\x7d", a truthy
`priority_episode` object for "P", a parse error elsewhere. -/
def parseW (s : String) : Option JVal :=
  if s = "\x7b\x7d" then some (.jobj [])
  else if s = "P" then some (.jobj [("priority_episode", .jbool true)])
  else none

/-- A processed episode of the last 24 hours, for the digest witnesses. -/
def epDigest : Episode :=
  { id := 2, podcast_id := 1, title := "D", description := none
    audio_url := none, published_at := 50, duration_seconds := .null
    processed := true, transcript := some "T", ai_summary := some "P" }

lemma countEff_append (f : Eff → Bool) (a b : List Eff) :
    countEff f (a ++ b) = countEff f a + countEff f b := by
  simp [countEff, List.filter_append]

lemma countEff_cons (f : Eff → Bool) (x : Eff) (l : List Eff) :
    countEff f (x :: l) = (if f x = true then 1 else 0) + countEff f l := by
  by_cases h : f x = true <;> simp [countEff, List.filter_cons, h] <;> omega

lemma countEff_flatten_zero (f : Eff → Bool) (L : List (List Eff))
    (h : ∀ x ∈ L, countEff f x = 0) : countEff f L.flatten = 0 := by
  induction L with
  | nil => simp [countEff]
  | cons a t ih =>
    rw [List.flatten_cons, countEff_append]
    have ha := h a (by simp)
    have ht := ih (fun x hx => h x (by simp [hx]))
    omega

lemma flatten_map_ite {α β : Type _} (l : List α) (q : α → Prop) [DecidablePred q]
    (f : α → List β) :
    (l.map (fun x => if q x then f x else [])).flatten
      = ((l.filter (fun x => decide (q x))).map f).flatten := by
  induction l with
  | nil => rfl
  | cons a t ih => by_cases h : q a <;> simp [h, ih]

lemma transcribeAudio_counts (env : Env) (u : Option String) :
    countEff isClaudeSummarizeEff (transcribeAudio env u).1 = 0 ∧
    countEff isClaudeFlagEff (transcribeAudio env u).1 = 0 ∧
    countEff isUpdateEpisodeEff (transcribeAudio env u).1 = 0 ∧
    countEff isInsertTopicFlagsEff (transcribeAudio env u).1 = 0 ∧
    countEff isInsertEpisodeEff (transcribeAudio env u).1 = 0 ∧
    countEff isFetchFeedEff (transcribeAudio env u).1 = 0 ∧
    countEff isWhisperEff (transcribeAudio env u).1 ≤ 1 ∧
    countEff isHttpGetAudioEff (transcribeAudio env u).1 ≤ 1 := by
  rcases u with _ | url
  · simp [transcribeAudio, countEff]
  · unfold transcribeAudio
    rcases h : env.downloadAudio url with e | v
    · simp [h, countEff, isClaudeSummarizeEff, isClaudeFlagEff, isUpdateEpisodeEff,
        isInsertTopicFlagsEff, isInsertEpisodeEff, isFetchFeedEff, isWhisperEff,
        isHttpGetAudioEff]
    · rcases h2 : env.whisper url with e | t <;>
        simp [h, h2, countEff, isClaudeSummarizeEff, isClaudeFlagEff, isUpdateEpisodeEff,
          isInsertTopicFlagsEff, isInsertEpisodeEff, isFetchFeedEff, isWhisperEff,
          isHttpGetAudioEff]

lemma summary_counts (env : Env) (ep : Episode) (tr : String) :
    countEff isWhisperEff (generateEnhancedSummary env ep tr).1 = 0 ∧
    countEff isHttpGetAudioEff (generateEnhancedSummary env ep tr).1 = 0 ∧
    countEff isClaudeSummarizeEff (generateEnhancedSummary env ep tr).1 = 1 ∧
    countEff isClaudeFlagEff (generateEnhancedSummary env ep tr).1 = 0 ∧
    countEff isUpdateEpisodeEff (generateEnhancedSummary env ep tr).1 = 0 ∧
    countEff isInsertTopicFlagsEff (generateEnhancedSummary env ep tr).1 = 0 ∧
    countEff isInsertEpisodeEff (generateEnhancedSummary env ep tr).1 = 0 ∧
    countEff isFetchFeedEff (generateEnhancedSummary env ep tr).1 = 0 := by
  unfold generateEnhancedSummary
  rcases h : env.claudeSummary ep.title tr with e | s <;>
    simp [h, countEff, isWhisperEff, isHttpGetAudioEff, isClaudeSummarizeEff, isClaudeFlagEff,
      isUpdateEpisodeEff, isInsertTopicFlagsEff, isInsertEpisodeEff, isFetchFeedEff]

lemma flags_counts (env : Env) (ep : Episode) (tr : String) :
    countEff isWhisperEff (flagInterestTopics env ep tr).1 = 0 ∧
    countEff isHttpGetAudioEff (flagInterestTopics env ep tr).1 = 0 ∧
    countEff isClaudeSummarizeEff (flagInterestTopics env ep tr).1 = 0 ∧
    countEff isClaudeFlagEff (flagInterestTopics env ep tr).1 ≤ 1 ∧
    countEff isUpdateEpisodeEff (flagInterestTopics env ep tr).1 = 0 ∧
    countEff isInsertTopicFlagsEff (flagInterestTopics env ep tr).1 = 0 ∧
    countEff isInsertEpisodeEff (flagInterestTopics env ep tr).1 = 0 ∧
    countEff isFetchFeedEff (flagInterestTopics env ep tr).1 = 0 := by
  unfold flagInterestTopics
  rcases h : env.queryTopics with _ | ⟨_ | ⟨t0, ts⟩⟩
  · simp [h, countEff, isWhisperEff, isHttpGetAudioEff, isClaudeSummarizeEff, isClaudeFlagEff,
      isUpdateEpisodeEff, isInsertTopicFlagsEff, isInsertEpisodeEff, isFetchFeedEff]
  · simp [h, countEff, isWhisperEff, isHttpGetAudioEff, isClaudeSummarizeEff, isClaudeFlagEff,
      isUpdateEpisodeEff, isInsertTopicFlagsEff, isInsertEpisodeEff, isFetchFeedEff]
  · rcases h2 : env.claudeFlags ep.title tr with e | analysis
    · simp [h, h2, countEff, isWhisperEff, isHttpGetAudioEff, isClaudeSummarizeEff,
        isClaudeFlagEff, isUpdateEpisodeEff, isInsertTopicFlagsEff, isInsertEpisodeEff,
        isFetchFeedEff]
    · by_cases hp : analysis.priority_episode = true <;>
        simp [h, h2, hp, countEff, isWhisperEff, isHttpGetAudioEff, isClaudeSummarizeEff,
          isClaudeFlagEff, isUpdateEpisodeEff, isInsertTopicFlagsEff, isInsertEpisodeEff,
          isFetchFeedEff]

lemma processEpisodeAI_eq (env : Env) (ep : Episode) :
    processEpisodeAI env ep =
      (transcribeAudio env ep.audio_url).1 ++
        (match (transcribeAudio env ep.audio_url).2 with
         | none => []
         | some tr =>
           if tr = "" then []
           else
             (generateEnhancedSummary env ep tr).1 ++ (flagInterestTopics env ep tr).1 ++
               [Eff.updateEpisode ep.id tr (generateEnhancedSummary env ep tr).2 true] ++
               (if (flagInterestTopics env ep tr).2.isEmpty then []
                else [Eff.insertTopicFlags (flagInterestTopics env ep tr).2])) := by
  unfold processEpisodeAI
  rcases h : (transcribeAudio env ep.audio_url).2 with _ | tr
  · simp [h]
  · by_cases htr : tr = "" <;> simp [h, htr, List.append_assoc]

lemma processEpisodeAI_skip (env : Env) (ep : Episode)
    (h : (transcribeAudio env ep.audio_url).2 = none) :
    processEpisodeAI env ep = (transcribeAudio env ep.audio_url).1 := by
  unfold processEpisodeAI
  simp [h]

lemma processEpisodeAI_skip_empty (env : Env) (ep : Episode)
    (h : (transcribeAudio env ep.audio_url).2 = some "") :
    processEpisodeAI env ep = (transcribeAudio env ep.audio_url).1 := by
  unfold processEpisodeAI
  simp [h]

lemma processEpisodeAI_run (env : Env) (ep : Episode) (tr : String)
    (h : (transcribeAudio env ep.audio_url).2 = some tr) (htr : tr ≠ "") :
    processEpisodeAI env ep =
      (transcribeAudio env ep.audio_url).1 ++ (generateEnhancedSummary env ep tr).1 ++
        (flagInterestTopics env ep tr).1 ++
        [Eff.updateEpisode ep.id tr (generateEnhancedSummary env ep tr).2 true] ++
        (if (flagInterestTopics env ep tr).2.isEmpty then []
         else [Eff.insertTopicFlags (flagInterestTopics env ep tr).2]) := by
  unfold processEpisodeAI
  simp [h, htr, List.append_assoc]

lemma processEpisodeAI_counts (env : Env) (ep : Episode) :
    countEff isWhisperEff (processEpisodeAI env ep) ≤ 1 ∧
    countEff isHttpGetAudioEff (processEpisodeAI env ep) ≤ 1 ∧
    countEff isClaudeSummarizeEff (processEpisodeAI env ep) ≤ 1 ∧
    countEff isClaudeFlagEff (processEpisodeAI env ep) ≤ 1 ∧
    countEff isUpdateEpisodeEff (processEpisodeAI env ep) ≤ 1 ∧
    countEff isInsertTopicFlagsEff (processEpisodeAI env ep) ≤ 1 ∧
    countEff isInsertEpisodeEff (processEpisodeAI env ep) = 0 ∧
    countEff isFetchFeedEff (processEpisodeAI env ep) = 0 := by
  obtain ⟨a1, a2, a3, a4, a5, a6, a7, a8⟩ := transcribeAudio_counts env ep.audio_url
  rcases h : (transcribeAudio env ep.audio_url).2 with _ | tr
  · rw [processEpisodeAI_skip env ep h]
    exact ⟨a7, a8, by omega, by omega, by omega, by omega, a5, a6⟩
  · by_cases htr : tr = ""
    · subst htr
      rw [processEpisodeAI_skip_empty env ep h]
      exact ⟨a7, a8, by omega, by omega, by omega, by omega, a5, a6⟩
    · rw [processEpisodeAI_run env ep tr h htr]
      obtain ⟨b1, b2, b3, b4, b5, b6, b7, b8⟩ := summary_counts env ep tr
      obtain ⟨c1, c2, c3, c4, c5, c6, c7, c8⟩ := flags_counts env ep tr
      have hupd : ∀ f : Eff → Bool,
          countEff f [Eff.updateEpisode ep.id tr (generateEnhancedSummary env ep tr).2 true]
            = if f (Eff.updateEpisode ep.id tr (generateEnhancedSummary env ep tr).2 true) = true
              then 1 else 0 := by
        intro f
        by_cases hf : f (Eff.updateEpisode ep.id tr (generateEnhancedSummary env ep tr).2 true)
            = true <;> simp [countEff, List.filter, hf]
      have hins : ∀ f : Eff → Bool,
          countEff f (if (flagInterestTopics env ep tr).2.isEmpty then []
              else [Eff.insertTopicFlags (flagInterestTopics env ep tr).2])
            ≤ if f (Eff.insertTopicFlags (flagInterestTopics env ep tr).2) = true
              then 1 else 0 := by
        intro f
        by_cases he : (flagInterestTopics env ep tr).2.isEmpty <;>
          by_cases hf : f (Eff.insertTopicFlags (flagInterestTopics env ep tr).2) = true <;>
            simp [countEff, List.filter, he, hf]
      simp only [countEff_append]
      refine ⟨?_, ?_, ?_, ?_, ?_, ?_, ?_, ?_⟩
      · have h1 := hupd isWhisperEff
        have h2 := hins isWhisperEff
        simp [isWhisperEff] at h1 h2 ⊢
        omega
      · have h1 := hupd isHttpGetAudioEff
        have h2 := hins isHttpGetAudioEff
        simp [isHttpGetAudioEff] at h1 h2 ⊢
        omega
      · have h1 := hupd isClaudeSummarizeEff
        have h2 := hins isClaudeSummarizeEff
        simp [isClaudeSummarizeEff] at h1 h2 ⊢
        omega
      · have h1 := hupd isClaudeFlagEff
        have h2 := hins isClaudeFlagEff
        simp [isClaudeFlagEff] at h1 h2 ⊢
        omega
      · have h1 := hupd isUpdateEpisodeEff
        have h2 := hins isUpdateEpisodeEff
        simp [isUpdateEpisodeEff] at h1 h2 ⊢
        omega
      · have h1 := hupd isInsertTopicFlagsEff
        have h2 := hins isInsertTopicFlagsEff
        simp [isInsertTopicFlagsEff] at h1 h2 ⊢
        omega
      · have h1 := hupd isInsertEpisodeEff
        have h2 := hins isInsertEpisodeEff
        simp [isInsertEpisodeEff] at h1 h2 ⊢
        omega
      · have h1 := hupd isFetchFeedEff
        have h2 := hins isFetchFeedEff
        simp [isFetchFeedEff] at h1 h2 ⊢
        omega

lemma processNewEpisode_counts (env : Env) (p : Podcast) (item : FeedItem) :
    countEff isInsertEpisodeEff (processNewEpisode env p item) = 1 ∧
    countEff isFetchFeedEff (processNewEpisode env p item) = 0 := by
  unfold processNewEpisode
  rcases h : env.insertEpisode (episodeDataOf p item) with e | ep
  · simp [h, countEff, isInsertEpisodeEff, isFetchFeedEff]
  · obtain ⟨_, _, _, _, _, _, hins, hff⟩ := processEpisodeAI_counts env ep
    simp only [h]
    rw [countEff_cons, countEff_cons]
    simp [isInsertEpisodeEff, isFetchFeedEff, hins, hff]

lemma processPodcastFeed_fetch (env : Env) (now : Int) (p : Podcast) :
    countEff isFetchFeedEff (processPodcastFeed env now p) = 1 := by
  unfold processPodcastFeed
  rcases h : env.parseFeed p.rss_url with e | items
  · simp [countEff, isFetchFeedEff, List.filter]
  · rw [countEff_cons, countEff_append]
    have hz : countEff isFetchFeedEff
        ((items.map (fun it =>
          if lastCheckedDate p < it.pubDate then processNewEpisode env p it else [])).flatten)
        = 0 := by
      apply countEff_flatten_zero
      intro x hx
      obtain ⟨it, _, rfl⟩ := List.mem_map.mp hx
      by_cases hd : lastCheckedDate p < it.pubDate
      · rw [if_pos hd]
        exact (processNewEpisode_counts env p it).2
      · rw [if_neg hd]
        simp [countEff]
    rw [hz]
    simp [isFetchFeedEff, countEff, List.filter]

lemma filter_not_mem_filter {α : Type _} [DecidableEq α] (l : List α) (q : α → Bool) :
    l.filter (fun x => !(decide (x ∈ l.filter q))) = l.filter (fun x => !(q x)) := by
  apply List.filter_congr
  intro x hx
  simp [List.mem_filter, hx]

lemma summaryPriorityFlag_iff (parse : String → Option JVal)
    (h1 : parse "\x7b\x7d" = some (.jobj [])) (h2 : parse "" = none) (ep : Episode) :
    summaryPriorityFlag parse ep.ai_summary = true ↔ priorityParses parse ep := by
  unfold summaryPriorityFlag priorityParses
  rcases hs : ep.ai_summary with _ | s
  · simp [jsOrStr, h1, jGet, jTruthy]
  · by_cases hse : s = ""
    · subst hse
      simp [jsOrStr, h1, h2, jGet, jTruthy]
    · simp only [jsOrStr, if_neg hse]
      rcases hp : parse s with _ | j
      · simp [hp]
      · simp [hp]

/-- C10: `parseDuration` returns hours*3600 + minutes*60 + seconds for every
string of exactly three colon-separated numeric parts, minutes*60 + seconds
for exactly two numeric parts, and null for an absent or empty input or any
input that does not split into exactly two or three colon-separated parts
(in particular a seconds-only string). -/
theorem parseDuration_spec :
    (∀ s p1 p2 p3 a b c, splitOnChar ':' s = [p1, p2, p3] →
        jsNumber p1 = some a → jsNumber p2 = some b → jsNumber p3 = some c →
        parseDuration (some s) = .num (a * 3600 + b * 60 + c))
    ∧ (∀ s p1 p2 a b, splitOnChar ':' s = [p1, p2] →
        jsNumber p1 = some a → jsNumber p2 = some b →
        parseDuration (some s) = .num (a * 60 + b))
    ∧ parseDuration none = .null
    ∧ parseDuration (some "") = .null
    ∧ (∀ s, (splitOnChar ':' s).length ≠ 2 → (splitOnChar ':' s).length ≠ 3 →
        parseDuration (some s) = .null) := by
  refine ⟨?_, ?_, rfl, rfl, ?_⟩
  · intro s p1 p2 p3 a b c hsplit h1 h2 h3
    have hne : s ≠ "" := by
      intro he
      subst he
      rw [show splitOnChar ':' "" = [""] from rfl] at hsplit
      simp at hsplit
    simp [parseDuration, hne, hsplit, h1, h2, h3]
  · intro s p1 p2 a b hsplit h1 h2
    have hne : s ≠ "" := by
      intro he
      subst he
      rw [show splitOnChar ':' "" = [""] from rfl] at hsplit
      simp at hsplit
    simp [parseDuration, hne, hsplit, h1, h2]
  · intro s hl2 hl3
    by_cases hse : s = ""
    · subst hse
      rfl
    · rcases hL : splitOnChar ':' s with _ | ⟨x, _ | ⟨y, _ | ⟨z, _ | ⟨w, rest⟩⟩⟩⟩
      · simp [parseDuration, hse, hL]
      · simp [parseDuration, hse, hL]
      · exact absurd (by rw [hL]; rfl) hl2
      · exact absurd (by rw [hL]; rfl) hl3
      · simp [parseDuration, hse, hL]

/-- C10 witness: "1:02:03" is 3723 seconds, via the three-part case. -/
theorem parseDuration_spec_witness :
    parseDuration (some "1:02:03") = .num 3723 := by
  have h := parseDuration_spec.1 "1:02:03" "1" "02" "03" 1 2 3 rfl rfl rfl rfl
  simpa using h

/-- C7: the cron triggers invoke exactly the operations of the on-demand
endpoints: the scheduled feed check is `checkAllFeeds`, the same function
behind POST /check-feeds, and the scheduled digest is `sendDailyDigest`, the
same function behind POST /send-digest, so on the same state their effect
traces coincide. -/
theorem cron_equals_endpoints :
    ∀ (env : Env) (now : Int) (parse : String → Option JVal)
      (userEmail : Option String) (table : List Episode),
      cronFeedCheck env now = (postCheckFeeds env now).2.2
      ∧ cronDailyDigest parse userEmail table now
          = (postSendDigest parse userEmail table now).2.2 := by
  intro env now parse userEmail table
  exact ⟨rfl, rfl⟩

/-- C8: POST /check-feeds always answers 200 with a success body:
`checkAllFeeds` swallows every error behind its catch-all, so the handler's
500 branch never fires, for every environment outcome. -/
theorem checkFeeds_endpoint_always_succeeds :
    ∀ (env : Env) (now : Int),
      (postCheckFeeds env now).1 = 200 ∧ (postCheckFeeds env now).2.1 = true := by
  intro env now
  exact ⟨rfl, rfl⟩

/-- C3 (code bug): on a fully successful run whose topic analysis marks the
episode as a priority episode, the flagging stage writes the priority-marked
`ai_summary` and the step-4 persist then unconditionally overwrites
`ai_summary` with the plain summary text, so the stored record never retains
the priority marking (while transcript, plain summary, processed flag and the
matched topic-flag rows are persisted). -/
theorem priorityMarking_overwritten :
    processEpisodeAI envW epW =
      [Eff.httpGetAudio "a.mp3", Eff.whisper "a.mp3", Eff.claudeSummarize "E",
       Eff.queryTopics, Eff.claudeFlag "E", Eff.updatePrioritySummary 9 ["ai"],
       Eff.updateEpisode 9 "T" "S0" true, Eff.insertTopicFlags [rowW]]
    ∧ Eff.updatePrioritySummary 9 ["ai"] ∈ processEpisodeAI envW epW
    ∧ finalSummaryWrite 9 (processEpisodeAI envW epW) = some (.plain "S0") := by
  have h : processEpisodeAI envW epW =
      [Eff.httpGetAudio "a.mp3", Eff.whisper "a.mp3", Eff.claudeSummarize "E",
       Eff.queryTopics, Eff.claudeFlag "E", Eff.updatePrioritySummary 9 ["ai"],
       Eff.updateEpisode 9 "T" "S0" true, Eff.insertTopicFlags [rowW]] := by decide
  refine ⟨h, ?_, ?_⟩
  · rw [h]
    decide
  · rw [h]
    decide

/-- C1 (amended): for every successfully fetched feed, exactly the items
whose publish date is strictly later than the podcast's last-checked date
(the Unix epoch when `last_checked` is absent) are processed as new episodes,
in feed order, and afterwards `last_checked` is set to the current time. -/
theorem feed_diff_processes_strictly_newer :
    ∀ (env : Env) (now : Int) (p : Podcast) (items : List FeedItem),
      env.parseFeed p.rss_url = .ok items →
      processPodcastFeed env now p =
        Eff.fetchFeed p.rss_url ::
          (((items.filter (fun it => decide (lastCheckedDate p < it.pubDate))).map
              (processNewEpisode env p)).flatten
            ++ [Eff.updateLastChecked p.id now])
      ∧ (p.last_checked = none → lastCheckedDate p = 0) := by
  intro env now p items h
  constructor
  · simp only [processPodcastFeed, h]
    rw [flatten_map_ite items (fun it => lastCheckedDate p < it.pubDate)
      (processNewEpisode env p)]
  · intro h0
    simp [lastCheckedDate, h0]

/-- C1 witness: the single-item feed of `envW`, fetched successfully. -/
theorem feed_diff_witness :
    processPodcastFeed envW 5 pW =
      Eff.fetchFeed pW.rss_url ::
        ((([itemW].filter (fun it => decide (lastCheckedDate pW < it.pubDate))).map
            (processNewEpisode envW pW)).flatten
          ++ [Eff.updateLastChecked pW.id 5]) :=
  (feed_diff_processes_strictly_newer envW 5 pW [itemW] rfl).1

/-- C1 counterexample: a podcast never checked before whose feed's only item
is published exactly at the Unix epoch.  The claim's parenthetical says every
item of such a feed is processed, but the strict comparison `0 > 0` fails: the
item is not processed (processing it would have produced a non-empty trace)
and the run's trace holds only the fetch and the `last_checked` update. -/
theorem feed_diff_epoch_item_not_processed :
    pW.last_checked = none
    ∧ envEpoch.parseFeed pW.rss_url = Except.ok [itemEpoch]
    ∧ itemEpoch.pubDate = 0
    ∧ processPodcastFeed envEpoch 7 pW = [Eff.fetchFeed "u", Eff.updateLastChecked 1 7]
    ∧ processNewEpisode envEpoch pW itemEpoch ≠ [] := by
  refine ⟨rfl, rfl, rfl, by decide, by decide⟩

lemma checkAllFeeds_ok (env : Env) (now : Int) (ps : List Podcast)
    (h : env.getPodcasts = .ok ps) :
    checkAllFeeds env now
      = (ps.map (fun p => processPodcastFeed env now p ++ [Eff.sleep 2000])).flatten := by
  unfold checkAllFeeds checkAllFeedsBody
  simp [h]

lemma checkAllFeeds_error (env : Env) (now : Int) (e : String)
    (h : env.getPodcasts = .error e) :
    checkAllFeeds env now = [.logError "checkAllFeeds"] := by
  unfold checkAllFeeds checkAllFeedsBody
  simp [h]

lemma genSummary_error (env : Env) (ep : Episode) (tr : String) (e : String)
    (h : env.claudeSummary ep.title tr = .error e) :
    generateEnhancedSummary env ep tr
      = ([.claudeSummarize ep.title, .logError "generateEnhancedSummary"],
         fallbackSummaryText) := by
  simp [generateEnhancedSummary, h]

lemma flagTopics_error (env : Env) (ep : Episode) (tr : String)
    (topics : List Topic) (e : String)
    (ht : env.queryTopics = some topics) (hne : topics ≠ [])
    (h : env.claudeFlags ep.title tr = .error e) :
    flagInterestTopics env ep tr
      = ([.queryTopics, .claudeFlag ep.title, .logError "flagInterestTopics"], []) := by
  unfold flagInterestTopics
  rcases topics with _ | ⟨t0, ts⟩
  · exact absurd rfl hne
  · simp [ht, h]

/-- C2: every stage failure is caught, logged, and isolated.  The run over
the podcast list is the in-order concatenation of each podcast's own trace,
whatever the environment does inside any of them; a feed-fetch error leaves
only the fetch attempt and a log; an insert error leaves only the insert
attempt and a log; a Whisper failure is logged and yields no transcript; a
summary failure is logged and the pipeline continues through flagging and the
persist with the fallback summary; a flagging failure is logged, yields no
rows, and the persist still runs; and no stage is retried: one fetch per
podcast, one insert attempt per item, at most one call per AI stage per
episode. -/
theorem stage_failures_isolated :
    (∀ (env : Env) (now : Int) (ps : List Podcast), env.getPodcasts = .ok ps →
        checkAllFeeds env now
          = (ps.map (fun p => processPodcastFeed env now p ++ [Eff.sleep 2000])).flatten)
    ∧ (∀ (env : Env) (now : Int) (e : String), env.getPodcasts = .error e →
        checkAllFeeds env now = [.logError "checkAllFeeds"])
    ∧ (∀ (env : Env) (now : Int) (p : Podcast) (e : String),
        env.parseFeed p.rss_url = .error e →
        processPodcastFeed env now p = [.fetchFeed p.rss_url, .logError "processPodcastFeed"])
    ∧ (∀ (env : Env) (p : Podcast) (item : FeedItem) (e : String),
        env.insertEpisode (episodeDataOf p item) = .error e →
        processNewEpisode env p item
          = [.insertEpisode (episodeDataOf p item), .logError "processNewEpisode"])
    ∧ (∀ (env : Env) (url : String) (e : String),
        env.downloadAudio url = .ok () → env.whisper url = .error e →
        transcribeAudio env (some url)
          = ([.httpGetAudio url, .whisper url, .logError "transcribeAudio"], none))
    ∧ (∀ (env : Env) (ep : Episode) (tr : String) (e : String),
        (transcribeAudio env ep.audio_url).2 = some tr → tr ≠ "" →
        env.claudeSummary ep.title tr = .error e →
        processEpisodeAI env ep =
          (transcribeAudio env ep.audio_url).1 ++
            [Eff.claudeSummarize ep.title, Eff.logError "generateEnhancedSummary"] ++
            (flagInterestTopics env ep tr).1 ++
            [Eff.updateEpisode ep.id tr fallbackSummaryText true] ++
            (if (flagInterestTopics env ep tr).2.isEmpty then []
             else [Eff.insertTopicFlags (flagInterestTopics env ep tr).2]))
    ∧ (∀ (env : Env) (ep : Episode) (tr : String) (topics : List Topic) (e : String),
        (transcribeAudio env ep.audio_url).2 = some tr → tr ≠ "" →
        env.queryTopics = some topics → topics ≠ [] →
        env.claudeFlags ep.title tr = .error e →
        processEpisodeAI env ep =
          (transcribeAudio env ep.audio_url).1 ++
            (generateEnhancedSummary env ep tr).1 ++
            [Eff.queryTopics, Eff.claudeFlag ep.title, Eff.logError "flagInterestTopics"] ++
            [Eff.updateEpisode ep.id tr (generateEnhancedSummary env ep tr).2 true])
    ∧ (∀ (env : Env) (now : Int) (p : Podcast),
        countEff isFetchFeedEff (processPodcastFeed env now p) = 1)
    ∧ (∀ (env : Env) (p : Podcast) (item : FeedItem),
        countEff isInsertEpisodeEff (processNewEpisode env p item) = 1)
    ∧ (∀ (env : Env) (ep : Episode),
        countEff isWhisperEff (processEpisodeAI env ep) ≤ 1
        ∧ countEff isClaudeSummarizeEff (processEpisodeAI env ep) ≤ 1
        ∧ countEff isClaudeFlagEff (processEpisodeAI env ep) ≤ 1) := by
  refine ⟨?_, ?_, ?_, ?_, ?_, ?_, ?_, ?_, ?_, ?_⟩
  · intro env now ps h
    exact checkAllFeeds_ok env now ps h
  · intro env now e h
    exact checkAllFeeds_error env now e h
  · intro env now p e h
    simp [processPodcastFeed, h]
  · intro env p item e h
    simp [processNewEpisode, h]
  · intro env url e hd hw
    simp [transcribeAudio, hd, hw]
  · intro env ep tr e htrans htr hcs
    rw [processEpisodeAI_run env ep tr htrans htr, genSummary_error env ep tr e hcs]
  · intro env ep tr topics e htrans htr hq hqne hcf
    rw [processEpisodeAI_run env ep tr htrans htr,
      flagTopics_error env ep tr topics e hq hqne hcf]
    simp
  · intro env now p
    exact processPodcastFeed_fetch env now p
  · intro env p item
    exact (processNewEpisode_counts env p item).1
  · intro env ep
    obtain ⟨h1, _, h3, h4, _, _, _, _⟩ := processEpisodeAI_counts env ep
    exact ⟨h1, h3, h4⟩

/-- C2 witness: the single-podcast run of `envW` decomposes into that
podcast's trace followed by the fixed delay. -/
theorem stage_failures_isolated_witness :
    checkAllFeeds envW 3
      = ([pW].map (fun p => processPodcastFeed envW 3 p ++ [Eff.sleep 2000])).flatten :=
  stage_failures_isolated.1 envW 3 [pW] rfl

/-- C4: the annotation pipeline executes transcription (audio fetch then
speech-to-text), then summarization, then topic flagging, then the persist of
AI results, strictly in that order, with each stage's external call made at
most once; and when transcription yields no transcript (absent or empty),
none of summarization, flagging, or the AI persist runs. -/
theorem ai_pipeline_stage_order :
    ∀ (env : Env) (ep : Episode),
      processEpisodeAI env ep =
        (transcribeAudio env ep.audio_url).1 ++
          (match (transcribeAudio env ep.audio_url).2 with
           | none => []
           | some tr =>
             if tr = "" then []
             else
               (generateEnhancedSummary env ep tr).1 ++ (flagInterestTopics env ep tr).1 ++
                 [Eff.updateEpisode ep.id tr (generateEnhancedSummary env ep tr).2 true] ++
                 (if (flagInterestTopics env ep tr).2.isEmpty then []
                  else [Eff.insertTopicFlags (flagInterestTopics env ep tr).2]))
      ∧ (countEff isHttpGetAudioEff (processEpisodeAI env ep) ≤ 1
         ∧ countEff isWhisperEff (processEpisodeAI env ep) ≤ 1
         ∧ countEff isClaudeSummarizeEff (processEpisodeAI env ep) ≤ 1
         ∧ countEff isClaudeFlagEff (processEpisodeAI env ep) ≤ 1
         ∧ countEff isUpdateEpisodeEff (processEpisodeAI env ep) ≤ 1
         ∧ countEff isInsertTopicFlagsEff (processEpisodeAI env ep) ≤ 1)
      ∧ ((transcribeAudio env ep.audio_url).2 = none
          ∨ (transcribeAudio env ep.audio_url).2 = some "" →
          countEff isClaudeSummarizeEff (processEpisodeAI env ep) = 0
          ∧ countEff isClaudeFlagEff (processEpisodeAI env ep) = 0
          ∧ countEff isUpdateEpisodeEff (processEpisodeAI env ep) = 0
          ∧ countEff isInsertTopicFlagsEff (processEpisodeAI env ep) = 0) := by
  intro env ep
  refine ⟨processEpisodeAI_eq env ep, ?_, ?_⟩
  · obtain ⟨h1, h2, h3, h4, h5, h6, _, _⟩ := processEpisodeAI_counts env ep
    exact ⟨h2, h1, h3, h4, h5, h6⟩
  · intro hsk
    obtain ⟨a1, a2, a3, a4, _, _, _, _⟩ := transcribeAudio_counts env ep.audio_url
    rcases hsk with h | h
    · rw [processEpisodeAI_skip env ep h]
      exact ⟨a1, a2, a3, a4⟩
    · rw [processEpisodeAI_skip_empty env ep h]
      exact ⟨a1, a2, a3, a4⟩

/-- C4 witness: with the Whisper call failing, no later stage runs. -/
theorem ai_pipeline_stage_order_witness :
    countEff isClaudeSummarizeEff (processEpisodeAI envSkip epW) = 0
    ∧ countEff isClaudeFlagEff (processEpisodeAI envSkip epW) = 0
    ∧ countEff isUpdateEpisodeEff (processEpisodeAI envSkip epW) = 0
    ∧ countEff isInsertTopicFlagsEff (processEpisodeAI envSkip epW) = 0 :=
  (ai_pipeline_stage_order envSkip epW).2.2 (Or.inl rfl)

/-- C5: feeds are processed strictly one at a time in the order the database
query returned them, the run's trace being the in-order concatenation of the
per-feed traces, each followed by the fixed 2000 ms delay; in particular for
two consecutive feeds the whole delay stands between their traces. -/
theorem feeds_sequential_fixed_delay :
    ∀ (env : Env) (now : Int) (ps : List Podcast), env.getPodcasts = .ok ps →
      checkAllFeeds env now
        = (ps.map (fun p => processPodcastFeed env now p ++ [Eff.sleep 2000])).flatten
      ∧ (∀ p q, ps = [p, q] →
          checkAllFeeds env now
            = processPodcastFeed env now p ++ [Eff.sleep 2000]
                ++ (processPodcastFeed env now q ++ [Eff.sleep 2000])) := by
  intro env now ps h
  have hmain := checkAllFeeds_ok env now ps h
  refine ⟨hmain, ?_⟩
  intro p q hpq
  subst hpq
  rw [hmain]
  simp [List.append_assoc]

/-- C5 witness: a two-podcast run decomposes into the two feed traces with
the delay between (and after) them. -/
theorem feeds_sequential_fixed_delay_witness :
    checkAllFeeds envTwo 3
      = processPodcastFeed envTwo 3 pW ++ [Eff.sleep 2000]
          ++ (processPodcastFeed envTwo 3 pW ++ [Eff.sleep 2000]) :=
  (feeds_sequential_fixed_delay envTwo 3 [pW, pW] rfl).2 pW pW rfl

/-- C6: the digest selection is exactly the processed episodes of the last 24
hours, ordered most recent first; with no such episode, or no (or an empty)
configured email address, the run produces no effect at all; otherwise the
single effect is the digest email over that selection. -/
theorem dailyDigest_content :
    ∀ (parse : String → Option JVal) (userEmail : Option String)
      (table : List Episode) (now : Int),
      (digestQuery table now).Perm
          (table.filter (fun e => e.processed && decide (now - 86400000 ≤ e.published_at)))
      ∧ List.Sorted moreRecent (digestQuery table now)
      ∧ (∀ e, e ∈ digestQuery table now ↔
          e ∈ table ∧ e.processed = true ∧ now - 86400000 ≤ e.published_at)
      ∧ (userEmail = none → sendDailyDigest parse none table now = [])
      ∧ (sendDailyDigest parse (some "") table now = [])
      ∧ (digestQuery table now = [] → sendDailyDigest parse userEmail table now = [])
      ∧ (∀ em, userEmail = some em → em ≠ "" → digestQuery table now ≠ [] →
          sendDailyDigest parse userEmail table now
            = [Eff.sendMail em (generateDigestHTML parse (digestQuery table now))]) := by
  intro parse userEmail table now
  refine ⟨?_, ?_, ?_, ?_, rfl, ?_, ?_⟩
  · unfold digestQuery
    exact List.perm_insertionSort moreRecent _
  · unfold digestQuery
    exact List.sorted_insertionSort moreRecent _
  · intro e
    unfold digestQuery
    rw [List.Perm.mem_iff (List.perm_insertionSort moreRecent _)]
    simp [List.mem_filter, and_assoc]
  · intro _
    rfl
  · intro h
    rcases userEmail with _ | em
    · rfl
    · by_cases he : em = ""
      · subst he
        rfl
      · simp [sendDailyDigest, he, h]
  · intro em he hne hq
    subst he
    simp [sendDailyDigest, hne, List.isEmpty_iff, hq]

/-- C6 witness: one processed episode inside the window, a configured
address: exactly the digest email is sent. -/
theorem dailyDigest_content_witness :
    sendDailyDigest parseW (some "x") [epDigest] 100
      = [Eff.sendMail "x" (generateDigestHTML parseW (digestQuery [epDigest] 100))] :=
  (dailyDigest_content parseW (some "x") [epDigest] 100).2.2.2.2.2.2 "x" rfl
    (by decide) (by decide)

lemma count_filter_not_filter {α : Type _} [DecidableEq α] (q : α → Bool) (l : List α)
    (a : α) :
    (l.filter q).count a + (l.filter (fun x => !(q x))).count a = l.count a := by
  induction l with
  | nil => simp
  | cons x xs ih =>
    by_cases ha : a = x
    · subst ha
      by_cases hq : q a = true
      · have hz : (xs.filter (fun x => !(q x))).count a = 0 :=
          List.count_eq_zero_of_not_mem (by simp [List.mem_filter, hq])
        simp [List.filter_cons, hq, List.count_cons, hz]
      · have hz : (xs.filter q).count a = 0 :=
          List.count_eq_zero_of_not_mem (by simp [List.mem_filter, hq])
        simp [List.filter_cons, hq, List.count_cons, hz]
    · by_cases hq : q x = true <;> simp [List.filter_cons, hq, ha, List.count_cons] <;> omega

/-- C9: the digest HTML renders every input episode exactly once — in the
priority section exactly when its `ai_summary` parses as JSON with a truthy
`priority_episode` field, and in the regular section otherwise; an absent,
empty, or unparsable `ai_summary` never drops an episode, it renders it as a
regular one.  The two hypotheses pin the JSON oracle on the code's default
"\x7b\x7d" and on the empty string. -/
theorem digest_renders_each_episode_once :
    ∀ (parse : String → Option JVal) (episodes : List Episode) (ep : Episode),
      parse "\x7b\x7d" = some (.jobj []) →
      parse "" = none →
      ((generateDigestHTML parse episodes).map Prod.fst).count ep = episodes.count ep
      ∧ ((ep, true) ∈ generateDigestHTML parse episodes ↔
          ep ∈ episodes ∧ priorityParses parse ep)
      ∧ ((ep, false) ∈ generateDigestHTML parse episodes ↔
          ep ∈ episodes ∧ ¬ priorityParses parse ep) := by
  intro parse episodes ep h1 h2
  have hflag : ∀ x : Episode,
      summaryPriorityFlag parse x.ai_summary = true ↔ priorityParses parse x :=
    fun x => summaryPriorityFlag_iff parse h1 h2 x
  have hreg := filter_not_mem_filter episodes
    (fun y => summaryPriorityFlag parse y.ai_summary)
  have hd : generateDigestHTML parse episodes
      = (episodes.filter (fun y => summaryPriorityFlag parse y.ai_summary)).map
          (fun e => (e, true))
        ++ (episodes.filter (fun y => !(summaryPriorityFlag parse y.ai_summary))).map
          (fun e => (e, false)) := by
    simp only [generateDigestHTML]
    rw [hreg]
  rw [hd]
  refine ⟨?_, ?_, ?_⟩
  · simp only [List.map_append, List.map_map, List.count_append]
    rw [show (Prod.fst ∘ fun e : Episode => (e, true)) = id from rfl,
      show (Prod.fst ∘ fun e : Episode => (e, false)) = id from rfl,
      List.map_id, List.map_id]
    exact count_filter_not_filter (fun y => summaryPriorityFlag parse y.ai_summary) episodes ep
  · simp only [List.mem_append, List.mem_map, List.mem_filter, Prod.mk.injEq]
    constructor
    · rintro (⟨x, ⟨hx, hqx⟩, hxe, _⟩ | ⟨x, ⟨hx, hqx⟩, hxe, hfalse⟩)
      · subst hxe
        exact ⟨hx, (hflag x).mp hqx⟩
      · simp at hfalse
    · rintro ⟨hmem, hp⟩
      exact Or.inl ⟨ep, ⟨hmem, (hflag ep).mpr hp⟩, rfl, trivial⟩
  · simp only [List.mem_append, List.mem_map, List.mem_filter, Prod.mk.injEq]
    constructor
    · rintro (⟨x, ⟨hx, hqx⟩, hxe, htrue⟩ | ⟨x, ⟨hx, hqx⟩, hxe, _⟩)
      · simp at htrue
      · subst hxe
        refine ⟨hx, fun hc => ?_⟩
        rw [← hflag x] at hc
        simp [hc] at hqx
    · rintro ⟨hmem, hp⟩
      refine Or.inr ⟨ep, ⟨hmem, ?_⟩, rfl, trivial⟩
      simp only [Bool.not_eq_true']
      rw [← Bool.not_eq_true]
      intro hc
      exact hp ((hflag ep).mp hc)

/-- C9 witness: a one-episode digest with a truthy priority summary renders
the episode exactly once. -/
theorem digest_renders_each_episode_once_witness :
    ((generateDigestHTML parseW [epDigest]).map Prod.fst).count epDigest
      = [epDigest].count epDigest :=
  (digest_renders_each_episode_once parseW [epDigest] epDigest rfl rfl).1
